import Mathlib

/-!
Shallow embedding of the clothing layering engine of `clothing.py`
(`ClothingHandler` plus the state-mutating parts of the wear / remove /
cover / uncover commands), together with theorems checking the
natural-language specification against it.

Garments are identified by natural numbers.  Per-garment mutable
attributes (`db.worn`, `db.covered_by`) are modelled as functions from
garment ids; the per-wearer ordered registry (`clothing_list`) is a list
of ids.  The environment bundles the immutable collaborators: the
clothing-type tag lookup (`obj.tags.get(category="clothing")`, at most
one primary type per the data model), display names, the inflection
helper `_INFLECT.an`, the `list_to_string` utility, and the optional
`get_worn_desc` capability.  Python runtime errors raised by slips in
the source (`caller` used where only `self.wearer` exists) are modelled
with `Except`.
-/

namespace Clothing

/-- Python runtime errors that the handler code can raise. -/
inductive PyErr where
  | nameError (missing : String)
  | attributeError (missing : String)
  | valueError
deriving DecidableEq, Repr

/-- The configuration surface of the module: module-level defaults,
overridable from `settings`. -/
structure Config where
  type_order : Option (List String)
  type_limits : List (String × Nat)
  total_limit : Option Nat
  autocover : List (String × List String)
  no_cover : List String

/-- The default values defined at the top of `clothing.py`. -/
def defaultConfig : Config :=
  { type_order := some ["hat", "jewelry", "top", "undershirt", "gloves", "fullbody",
      "bottom", "underpants", "socks", "shoes", "accessory"]
    type_limits := [("hat", 1), ("gloves", 1), ("socks", 1), ("shoes", 1)]
    total_limit := some 20
    autocover := [("top", ["undershirt"]), ("bottom", ["underpants"]),
      ("fullbody", ["undershirt", "underpants"]), ("shoes", ["socks"])]
    no_cover := ["jewelry"] }

/-- External collaborators: tag lookup, names, text helpers, the wearer's
display name and the optional worn-description capability. -/
structure Env where
  tagOf : Nat → Option String
  nameOf : Nat → String
  an : String → String
  l2s : List String → String
  wearerName : String
  worn_desc : Nat → Option String → Option String

/-- The mutable state of one wearer: the ordered registry plus each
garment's `db.worn` and `db.covered_by` attributes. -/
structure CState where
  clothing_list : List Nat
  covered_by : Nat → Option Nat
  worn : Nat → Option String

/-- Fresh wearer: empty registry, no garment has worn style or cover set. -/
def initState : CState :=
  { clothing_list := [], covered_by := fun _ => none, worn := fun _ => none }

/-- `ClothingHandler.visible`: worn items whose `covered_by` is unset. -/
def CState.visible (s : CState) : List Nat :=
  s.clothing_list.filter (fun g => (s.covered_by g).isNone)

/-- `garment.tags.has(tags, category=...)` for the one-primary-tag data
model: whether the garment's clothing tag is among the given tags. -/
def tagIn (env : Env) (g : Nat) (tags : List String) : Bool :=
  match env.tagOf g with
  | some t => tags.contains t
  | none => false

/-- `ClothingHandler.count_type`: worn items carrying the given type tag. -/
def count_type (env : Env) (s : CState) (ty : String) : Nat :=
  s.clothing_list.countP (fun g => env.tagOf g == some ty)

/-- Truthiness test `_CLOTHING_TOTAL_LIMIT and len(...) >= _CLOTHING_TOTAL_LIMIT`:
a limit of `None` or `0` is falsy and never triggers. -/
def totalLimitReached (cfg : Config) (s : CState) : Bool :=
  match cfg.total_limit with
  | none => false
  | some n => if n ≠ 0 ∧ n ≤ s.clothing_list.length then true else false

/-- `ClothingHandler.can_add`. -/
def can_add (cfg : Config) (env : Env) (s : CState) (obj : Nat) : Bool :=
  match env.tagOf obj with
  | none => false
  | some clothing_type =>
    if totalLimitReached cfg s then false
    else
      match cfg.type_limits.lookup clothing_type with
      | some limit => if count_type env s clothing_type ≥ limit then false else true
      | none => true

/-- `ClothingHandler.can_remove`. -/
def can_remove (s : CState) (obj : Nat) : Bool :=
  if obj ∉ s.clothing_list then false
  else if (s.covered_by obj).isSome then false
  else true

/-- `ClothingHandler.can_cover`.  Three of its failure branches reference
`caller`, a name that does not exist on the handler: the "already
covered" branch and the display-name call of the "isn't clothes" branch
use the undefined bare name `caller`, and the "cover_with is covered"
branch uses the missing attribute `self.caller`.  Those branches raise
instead of returning `False`. -/
def can_cover (cfg : Config) (env : Env) (s : CState) (to_cover cover_with : Nat) :
    Except PyErr Bool :=
  if (s.covered_by to_cover).isSome then
    .error (.nameError "caller")
  else if (env.tagOf cover_with).isNone then
    .error (.nameError "caller")
  else if tagIn env cover_with cfg.no_cover then
    .ok false
  else if to_cover = cover_with then
    .ok false
  else if (s.covered_by cover_with).isSome then
    .error (.attributeError "caller")
  else
    .ok true

/-- The auto-cover set looked up for the added item: the union over the
item's clothing tags of `_CLOTHING_AUTOCOVER_TYPES[tag]`, which for the
one-primary-tag data model is the entry of its tag (the scan is guarded
on the tag being a key of the table). -/
def autocoverSet (cfg : Config) (env : Env) (obj : Nat) : Option (List String) :=
  (env.tagOf obj).bind (fun t => cfg.autocover.lookup t)

/-- The `to_cover` list computed by the auto-cover scan of
`ClothingHandler.add`: empty on a style adjustment (the scan is guarded
by `not adjust`) or when the added item's type has no auto-cover entry;
otherwise the currently visible worn items — scanned after the append,
so the post-append registry is `s.clothing_list ++ [obj]` and the new
item itself is in the scanned list — whose type tag is in the
auto-cover set of the added item's type. -/
def addCoverList (cfg : Config) (env : Env) (s : CState) (obj : Nat) : List Nat :=
  if obj ∉ s.clothing_list ∧ (autocoverSet cfg env obj).isSome then
    ((s.clothing_list ++ [obj]).filter (fun g => (s.covered_by g).isNone)).filter
      (fun g => tagIn env g ((autocoverSet cfg env obj).getD []))
  else []

/-- `ClothingHandler.add`: append if new (else adjust), unconditionally
overwrite `db.worn` with the style argument, set `covered_by` to the new
item on every garment collected by the auto-cover scan, and build the
room notification unless quiet. -/
def add (cfg : Config) (env : Env) (s : CState) (obj : Nat) (style : Option String)
    (quiet : Bool) : CState × Option String :=
  let adjust : Bool := obj ∈ s.clothing_list
  let list1 := if adjust then s.clothing_list else s.clothing_list ++ [obj]
  let to_cover := addCoverList cfg env s obj
  let s2 : CState :=
    { clothing_list := list1
      covered_by := fun g => if g ∈ to_cover then some obj else s.covered_by g
      worn := fun g => if g = obj then style else s.worn g }
  let message :=
    if quiet then none
    else
      let base :=
        if adjust then "adjusts " ++ env.an (env.nameOf obj)
        else "puts on " ++ env.an (env.nameOf obj)
      let base :=
        if to_cover.isEmpty then base
        else base ++ ", covering " ++ env.l2s (to_cover.map (fun g => env.an (env.nameOf g)))
      some (env.wearerName ++ " " ++ base ++ ".")
  (s2, message)

/-- `ClothingHandler.remove`: clears the item's own style and cover state
first, then `list.remove` (which raises `ValueError` when the item is
not worn — the error carries the partially mutated state), then clears
`covered_by` on every remaining worn item that referenced the removed
item, collecting them for the notification. -/
def remove (env : Env) (s : CState) (obj : Nat) (quiet : Bool) :
    Except (PyErr × CState) (CState × Option String) :=
  let s0 : CState :=
    { s with
      worn := fun g => if g = obj then none else s.worn g
      covered_by := fun g => if g = obj then none else s.covered_by g }
  if obj ∈ s0.clothing_list then
    let list1 := s0.clothing_list.erase obj
    let uncovered := list1.filter (fun g => s0.covered_by g == some obj)
    let s1 : CState :=
      { clothing_list := list1
        covered_by := fun g =>
          if g ∈ list1 ∧ s0.covered_by g = some obj then none else s0.covered_by g
        worn := s0.worn }
    let message :=
      if quiet then none
      else
        let base := "removes " ++ env.an (env.nameOf obj)
        let base :=
          if uncovered.isEmpty then base
          else base ++ ", revealing " ++ env.l2s (uncovered.map (fun g => env.an (env.nameOf g)))
        some (env.wearerName ++ " " ++ base ++ ".")
    .ok (s1, message)
  else
    .error (.valueError, s0)

/-- `ClothingHandler.clear`: silently removes everything, clearing style
and cover state of each formerly worn item. -/
def clear (s : CState) : CState :=
  { clothing_list := []
    covered_by := fun g => if g ∈ s.clothing_list then none else s.covered_by g
    worn := fun g => if g ∈ s.clothing_list then none else s.worn g }

/-- The assignment `to_cover.db.covered_by = cover_with` performed by a
successful `CmdCover.func`. -/
def coverSet (s : CState) (to_cover cover_with : Nat) : CState :=
  { s with covered_by := fun g => if g = to_cover then some cover_with else s.covered_by g }

/-- State-mutating core of `CmdCover.func`: reject when the target is not
worn (private message only, no room broadcast, modelled as `none`); run
`can_cover` (propagating its runtime errors); on success set the cover
reference, build the room message and silently add the covering item
when it was not already worn. -/
def cover (cfg : Config) (env : Env) (s : CState) (to_cover cover_with : Nat) :
    Except PyErr (CState × Option String) :=
  if to_cover ∉ s.clothing_list then
    .ok (s, none)
  else
    match can_cover cfg env s to_cover cover_with with
    | .error e => .error e
    | .ok false => .ok (s, none)
    | .ok true =>
      let s1 := coverSet s to_cover cover_with
      let message :=
        env.wearerName ++ " covers " ++ env.an (env.nameOf to_cover) ++ " with " ++
          env.an (env.nameOf cover_with) ++ "."
      let s2 := if cover_with ∈ s1.clothing_list then s1
        else (add cfg env s1 cover_with none true).1
      .ok (s2, some message)

/-- State-mutating core of `CmdUncover.func`: only a worn, covered item
whose covering item is itself uncovered gets its reference cleared. -/
def uncover (env : Env) (s : CState) (obj : Nat) : CState × Option String :=
  if obj ∉ s.clothing_list then (s, none)
  else
    match s.covered_by obj with
    | none => (s, none)
    | some c =>
      if (s.covered_by c).isSome then (s, none)
      else
        ({ s with covered_by := fun g => if g = obj then none else s.covered_by g },
         some (env.wearerName ++ " uncovers " ++ env.an (env.nameOf obj) ++ "."))

/-- The per-item appearance used by `get_outfit`: `obj.get_worn_desc()`
when the capability exists, else the `_INFLECT.an(obj.key)` fallback of
the `try/except`. -/
def appearance (env : Env) (s : CState) (g : Nat) : String :=
  match env.worn_desc g (s.worn g) with
  | some d => d
  | none => env.an (env.nameOf g)

/-- The `obj_dict` / `extra` split built by the scan over visible items
in `get_outfit`: per-type groups in registry order, plus the items whose
type is absent from the order list (or untagged). -/
def buildGroups (env : Env) (order : List String) :
    List Nat → (String → List Nat) × List Nat
  | [] => (fun _ => [], [])
  | g :: rest =>
    let p := buildGroups env order rest
    match env.tagOf g with
    | some t =>
      if t ∈ order then ((fun u => if u = t then g :: p.1 u else p.1 u), p.2)
      else (p.1, g :: p.2)
    | none => (p.1, g :: p.2)

/-- `ClothingHandler.get_outfit`: sorted mode groups the visible items by
type in the configured display order (skipped when sorting is disabled
or the order list is falsy), then maps each to its appearance. -/
def get_outfit (cfg : Config) (env : Env) (s : CState) (sorted : Bool) : List String :=
  let obj_list :=
    if sorted && (match cfg.type_order with | some l => !l.isEmpty | none => false) then
      let order := cfg.type_order.getD []
      let p := buildGroups env order s.visible
      order.flatMap p.1 ++ p.2
    else s.visible
  obj_list.map (appearance env s)

/-- Projection of `remove` onto the resulting state (the error branch
carries the partially mutated state). -/
def removedState (env : Env) (s : CState) (obj : Nat) (quiet : Bool) : CState :=
  match remove env s obj quiet with
  | .ok p => p.1
  | .error p => p.2

/-- Projection of `cover` onto the resulting state (unchanged when the
command raised). -/
def coverStateD (cfg : Config) (env : Env) (s : CState) (to_cover cover_with : Nat) : CState :=
  match cover cfg env s to_cover cover_with with
  | .ok p => p.1
  | .error _ => s

/-- States reachable from an empty registry by the command-level
operations: wear (gated by `can_add`), remove (gated by `can_remove`),
cover, uncover and clear. -/
inductive Reach (cfg : Config) (env : Env) : CState → Prop where
  | start : Reach cfg env initState
  | wear (s : CState) (obj : Nat) (style : Option String) (quiet : Bool) :
      Reach cfg env s → can_add cfg env s obj = true →
      Reach cfg env (add cfg env s obj style quiet).1
  | take (s : CState) (obj : Nat) (quiet : Bool) :
      Reach cfg env s → can_remove s obj = true →
      Reach cfg env (removedState env s obj quiet)
  | coverStep (s : CState) (a b : Nat) :
      Reach cfg env s → Reach cfg env (coverStateD cfg env s a b)
  | uncoverStep (s : CState) (obj : Nat) :
      Reach cfg env s → Reach cfg env (uncover env s obj).1
  | clearStep (s : CState) :
      Reach cfg env s → Reach cfg env (clear s)

/-- A concrete environment for witnesses and counterexamples: garment 1
is an undershirt, 2 a top, 3 a bottom, 4 and 5 hats, 6 an accessory,
7 jewelry, 8 untagged. -/
def exEnv : Env :=
  { tagOf := fun g =>
      if g = 1 then some "undershirt" else if g = 2 then some "top"
      else if g = 3 then some "bottom" else if g = 4 then some "hat"
      else if g = 5 then some "hat" else if g = 6 then some "accessory"
      else if g = 7 then some "jewelry" else none
    nameOf := fun g =>
      if g = 1 then "undershirt" else if g = 2 then "shirt" else if g = 3 then "pants"
      else if g = 4 then "hat" else if g = 5 then "cap" else if g = 6 then "scarf"
      else if g = 7 then "ring" else "thing"
    an := fun str => "a " ++ str
    l2s := fun l => String.intercalate ", " l
    wearerName := "Wearer"
    worn_desc := fun _ _ => none }

/-- A wearer that wears only garment 2, with a worn style set. -/
def wornStyleState : CState :=
  { clothing_list := [2]
    covered_by := fun _ => none
    worn := fun g => if g = 2 then some "loosely" else none }

/-- A wearer whose undershirt (1) is covered by their shirt (2). -/
def coveredPairState : CState :=
  { clothing_list := [1, 2]
    covered_by := fun g => if g = 1 then some 2 else none
    worn := fun _ => none }

/-! Helper lemmas about the operations, shared by the claim theorems. -/

theorem tagIn_iff (env : Env) (g : Nat) (tags : List String) :
    tagIn env g tags = true ↔ ∃ u, env.tagOf g = some u ∧ u ∈ tags := by
  cases h : env.tagOf g <;> simp [tagIn, h]

theorem autocoverSet_eq_some (cfg : Config) (env : Env) (obj : Nat) (covers : List String) :
    autocoverSet cfg env obj = some covers ↔
      ∃ t, env.tagOf obj = some t ∧ cfg.autocover.lookup t = some covers := by
  cases h : env.tagOf obj <;> simp [autocoverSet, h]

theorem addCoverList_of_mem (cfg : Config) (env : Env) (s : CState) (obj : Nat)
    (h : obj ∈ s.clothing_list) : addCoverList cfg env s obj = [] := by
  simp [addCoverList, h]

/-- Everything the auto-cover scan collects: the add was a real add, the
collected garment was visible, it is in the post-append registry, and
its tag is in the configured auto-cover set of the added item's tag. -/
theorem mem_addCoverList (cfg : Config) (env : Env) (s : CState) (obj g : Nat)
    (h : g ∈ addCoverList cfg env s obj) :
    obj ∉ s.clothing_list ∧ s.covered_by g = none ∧ (g ∈ s.clothing_list ∨ g = obj) ∧
      ∃ t covers u, env.tagOf obj = some t ∧ cfg.autocover.lookup t = some covers ∧
        env.tagOf g = some u ∧ u ∈ covers := by
  unfold addCoverList at h
  split at h
  case isFalse => simp at h
  case isTrue hguard =>
    obtain ⟨hobj, hset⟩ := hguard
    rcases Option.isSome_iff_exists.mp hset with ⟨covers, hcov⟩
    rcases (autocoverSet_eq_some cfg env obj covers).mp hcov with ⟨t, ht, hlk⟩
    rcases List.mem_filter.mp h with ⟨hvis, hmatch⟩
    rcases List.mem_filter.mp hvis with ⟨hreg, hnone⟩
    rcases (tagIn_iff env g _).mp hmatch with ⟨u, hu, humem⟩
    refine ⟨hobj, Option.isNone_iff_eq_none.mp hnone, ?_, t, covers, u, ht, hlk, hu, ?_⟩
    · rcases List.mem_append.mp hreg with hl2 | hr2
      · exact Or.inl hl2
      · exact Or.inr (List.mem_singleton.mp hr2)
    · rw [hcov] at humem
      simpa using humem

/-- Everything matching the scan's condition is collected. -/
theorem addCoverList_complete (cfg : Config) (env : Env) (s : CState) (obj g : Nat)
    (t u : String) (covers : List String)
    (hobj : obj ∉ s.clothing_list) (ht : env.tagOf obj = some t)
    (hl : cfg.autocover.lookup t = some covers)
    (hg : g ∈ s.clothing_list ∨ g = obj) (hvis : s.covered_by g = none)
    (hu : env.tagOf g = some u) (humem : u ∈ covers) :
    g ∈ addCoverList cfg env s obj := by
  have hcov : autocoverSet cfg env obj = some covers :=
    (autocoverSet_eq_some cfg env obj covers).mpr ⟨t, ht, hl⟩
  unfold addCoverList
  rw [if_pos ⟨hobj, by rw [hcov]; rfl⟩]
  refine List.mem_filter.mpr ⟨List.mem_filter.mpr ⟨?_, by simp [hvis]⟩, ?_⟩
  · rcases hg with hl2 | hr2
    · exact List.mem_append.mpr (Or.inl hl2)
    · exact List.mem_append.mpr (Or.inr (by simp [hr2]))
  · exact (tagIn_iff env g _).mpr ⟨u, hu, by rw [hcov]; simpa using humem⟩

theorem add_list_of_mem (cfg : Config) (env : Env) (s : CState) (obj : Nat)
    (style : Option String) (q : Bool) (h : obj ∈ s.clothing_list) :
    (add cfg env s obj style q).1.clothing_list = s.clothing_list := by
  simp [add, h]

theorem add_list_of_not_mem (cfg : Config) (env : Env) (s : CState) (obj : Nat)
    (style : Option String) (q : Bool) (h : obj ∉ s.clothing_list) :
    (add cfg env s obj style q).1.clothing_list = s.clothing_list ++ [obj] := by
  simp [add, h]

theorem add_covered_eq (cfg : Config) (env : Env) (s : CState) (obj : Nat)
    (style : Option String) (q : Bool) :
    (add cfg env s obj style q).1.covered_by = fun g =>
      if g ∈ addCoverList cfg env s obj then some obj else s.covered_by g := rfl

theorem add_covered_of_mem (cfg : Config) (env : Env) (s : CState) (obj : Nat)
    (style : Option String) (q : Bool) (h : obj ∈ s.clothing_list) :
    (add cfg env s obj style q).1.covered_by = s.covered_by := by
  funext g
  rw [add_covered_eq, addCoverList_of_mem cfg env s obj h]
  simp

theorem add_worn (cfg : Config) (env : Env) (s : CState) (obj : Nat)
    (style : Option String) (q : Bool) :
    (add cfg env s obj style q).1.worn = fun g => if g = obj then style else s.worn g := rfl

/-- A garment that is already covered is never touched by the auto-cover
scan (the scan only ranges over visible items). -/
theorem add_covered_stable (cfg : Config) (env : Env) (s : CState) (obj : Nat)
    (style : Option String) (q : Bool) (g : Nat) (h : (s.covered_by g).isSome = true) :
    (add cfg env s obj style q).1.covered_by g = s.covered_by g := by
  rw [add_covered_eq]
  have hnm : g ∉ addCoverList cfg env s obj := by
    intro hc
    rcases mem_addCoverList cfg env s obj g hc with ⟨-, hnone, -, -⟩
    rw [hnone] at h
    cases h
  simp [hnm]

theorem removedState_list (env : Env) (s : CState) (obj : Nat) (q : Bool)
    (h : obj ∈ s.clothing_list) :
    (removedState env s obj q).clothing_list = s.clothing_list.erase obj := by
  simp [removedState, remove, h]

theorem removedState_covered (env : Env) (s : CState) (obj : Nat) (q : Bool)
    (h : obj ∈ s.clothing_list) (g : Nat) :
    (removedState env s obj q).covered_by g =
      if g ∈ s.clothing_list.erase obj ∧ ¬g = obj ∧ s.covered_by g = some obj then none
      else if g = obj then none else s.covered_by g := by
  simp [removedState, remove, h]

theorem removedState_worn (env : Env) (s : CState) (obj : Nat) (q : Bool)
    (h : obj ∈ s.clothing_list) (g : Nat) :
    (removedState env s obj q).worn g = if g = obj then none else s.worn g := by
  simp [removedState, remove, h]

/-- When the removed item is not worn, `list.remove` raises and the state
keeps its registry, with only the item's own attributes cleared. -/
theorem removedState_not_mem (env : Env) (s : CState) (obj : Nat) (q : Bool)
    (h : obj ∉ s.clothing_list) :
    removedState env s obj q =
      { s with
        worn := fun g => if g = obj then none else s.worn g
        covered_by := fun g => if g = obj then none else s.covered_by g } := by
  simp [removedState, remove, h]

/-! C10 -/

/-- C10: `add` unconditionally overwrites the stored worn style, so a
re-add without a style erases a previously set style, quiet or not. -/
theorem C10_add_overwrites_worn_style (cfg : Config) (env : Env) (s : CState)
    (g : Nat) (st : String) (q : Bool)
    (hworn : g ∈ s.clothing_list) (hst : s.worn g = some st) :
    (add cfg env s g none q).1.worn g = none := by
  simp [add]

/-- Witness for C10 at a concrete worn garment with a set style. -/
theorem C10_witness :
    2 ∈ wornStyleState.clothing_list ∧ wornStyleState.worn 2 = some "loosely" ∧
    (add defaultConfig exEnv wornStyleState 2 none false).1.worn 2 = none ∧
    (add defaultConfig exEnv wornStyleState 2 none true).1.worn 2 = none :=
  ⟨by decide, by rfl,
   C10_add_overwrites_worn_style defaultConfig exEnv wornStyleState 2 "loosely" false
     (by decide) (by rfl),
   C10_add_overwrites_worn_style defaultConfig exEnv wornStyleState 2 "loosely" true
     (by decide) (by rfl)⟩

/-! C8 -/

/-- C8: adding an already-worn garment is a style adjustment: the
registry sequence is unchanged (also when done twice in a row, and the
occurrence count of the garment is preserved), and the notification is
the "adjusts" message, not the "puts on" one. -/
theorem C8_adjust_never_mutates (cfg : Config) (env : Env) (s : CState) (g : Nat)
    (style style2 : Option String) (h : g ∈ s.clothing_list) :
    (add cfg env s g style false).1.clothing_list = s.clothing_list ∧
    (add cfg env (add cfg env s g style false).1 g style2 false).1.clothing_list =
      s.clothing_list ∧
    (s.clothing_list.count g = 1 →
      (add cfg env (add cfg env s g style false).1 g style2 false).1.clothing_list.count g = 1) ∧
    (add cfg env s g style false).2 =
      some (env.wearerName ++ " " ++ ("adjusts " ++ env.an (env.nameOf g)) ++ ".") := by
  have h1 := add_list_of_mem cfg env s g style false h
  have h2 : g ∈ (add cfg env s g style false).1.clothing_list := by rw [h1]; exact h
  have h3 := add_list_of_mem cfg env (add cfg env s g style false).1 g style2 false h2
  refine ⟨h1, by rw [h3, h1], fun hcount => by rw [h3, h1]; exact hcount, ?_⟩
  have hcov := addCoverList_of_mem cfg env s g h
  simp [add, h, hcov]

/-- Witness for C8 at a concrete already-worn garment. -/
theorem C8_witness :
    2 ∈ wornStyleState.clothing_list ∧
    (add defaultConfig exEnv wornStyleState 2 (some "tucked in") false).1.clothing_list = [2] ∧
    (add defaultConfig exEnv
      (add defaultConfig exEnv wornStyleState 2 (some "tucked in") false).1
      2 none false).1.clothing_list = [2] ∧
    (add defaultConfig exEnv wornStyleState 2 (some "tucked in") false).2 =
      some "Wearer adjusts a shirt." := by
  have h := C8_adjust_never_mutates defaultConfig exEnv wornStyleState 2
    (some "tucked in") none (by decide)
  exact ⟨by decide, h.1, h.2.1, h.2.2.2⟩

/-! C3 -/

/-- C3: `can_remove` fails exactly on a not-worn item or an item whose
own `covered_by` is set (covering another garment is no obstacle), and a
successful `remove` clears the removed item's style and cover state and
cascades: every remaining worn item that was covered by it is
uncovered. -/
theorem C3_can_remove_and_cascade (env : Env) (s : CState) (item : Nat) :
    (can_remove s item = false ↔
      (item ∉ s.clothing_list ∨ (s.covered_by item).isSome = true)) ∧
    (item ∈ s.clothing_list →
      ∀ q : Bool,
        (remove env s item q).toOption.isSome = true ∧
        (removedState env s item q).covered_by item = none ∧
        (removedState env s item q).worn item = none ∧
        ∀ g ∈ (removedState env s item q).clothing_list,
          s.covered_by g = some item → (removedState env s item q).covered_by g = none) := by
  constructor
  · by_cases hm : item ∈ s.clothing_list <;> by_cases hc : (s.covered_by item).isSome <;>
      simp [can_remove, hm, hc]
  · intro hm q
    refine ⟨by simp [remove, hm, Except.toOption], ?_, ?_, ?_⟩
    · rw [removedState_covered env s item q hm item]
      simp
    · rw [removedState_worn env s item q hm item]
      simp
    · intro g hg hcov
      rw [removedState_list env s item q hm] at hg
      rw [removedState_covered env s item q hm g]
      by_cases hgi : g = item
      · subst hgi
        simp
      · rw [if_pos ⟨hg, hgi, hcov⟩]

/-- Witness for C3: wearer of an undershirt covered by a shirt; removing
the shirt succeeds and reveals the undershirt. -/
theorem C3_witness :
    (can_remove coveredPairState 2 = false ↔
      (2 ∉ coveredPairState.clothing_list ∨
        (coveredPairState.covered_by 2).isSome = true)) ∧
    (remove exEnv coveredPairState 2 false).toOption.isSome = true ∧
    (removedState exEnv coveredPairState 2 false).covered_by 2 = none ∧
    (removedState exEnv coveredPairState 2 false).covered_by 1 = none := by
  have h := C3_can_remove_and_cascade exEnv coveredPairState 2
  have h2 := h.2 (by decide) false
  exact ⟨h.1, h2.1, h2.2.1, h2.2.2.2 1 (by decide) (by rfl)⟩

/-! C4 -/

/-- A wearer already wearing garment 5 (an untagged plain object is fine
for the registry round trip). -/
def c4State : CState :=
  { clothing_list := [5], covered_by := fun _ => none, worn := fun _ => none }

/-- C4 counterexample: for an already-worn garment, `add` is a style
adjustment (no append) but `remove` still deletes it, so the worn set
after `add(g); remove(g)` is not the prior one. -/
theorem C4_counterexample :
    5 ∈ c4State.clothing_list ∧
    5 ∉ (removedState exEnv (add defaultConfig exEnv c4State 5 none false).1 5
          false).clothing_list := by
  constructor
  · decide
  · decide

/-- C4 amended: the round trip holds for every garment that is not
already worn — `add(g)` appends it and `remove(g)` deletes exactly that
occurrence, restoring the registry sequence. -/
theorem C4_amended (cfg : Config) (env : Env) (s : CState) (g : Nat)
    (style : Option String) (q q2 : Bool) (h : g ∉ s.clothing_list) :
    (removedState env (add cfg env s g style q).1 g q2).clothing_list = s.clothing_list := by
  have hli := add_list_of_not_mem cfg env s g style q h
  have hmem : g ∈ (add cfg env s g style q).1.clothing_list := by
    rw [hli]
    exact List.mem_append.mpr (Or.inr (by simp))
  have hrl : (removedState env (add cfg env s g style q).1 g q2).clothing_list =
      (add cfg env s g style q).1.clothing_list.erase g := by
    simp [removedState, remove, hmem]
  rw [hrl, hli, List.erase_append_right _ h, List.erase_cons_head, List.append_nil]

/-- Witness for C4 amended: wearing then removing a fresh hat restores
the empty registry. -/
theorem C4_witness :
    (4 ∉ initState.clothing_list) ∧
    (removedState exEnv (add defaultConfig exEnv initState 4 none false).1 4
        false).clothing_list = initState.clothing_list :=
  ⟨by decide,
   C4_amended defaultConfig exEnv initState 4 none false false (by decide)⟩

/-! C2 -/

/-- C2: the constraint checkers do not all return `False` with a message
on expected violations — `can_cover` raises.  With the undershirt (1)
covered by the shirt (2): covering anything over the already-covered
undershirt hits the undefined name `caller`; covering with an untagged
item (8) hits the same undefined name inside the message expression;
covering with the already-covered undershirt hits the missing attribute
`self.caller`.  The checks that do use `self.wearer` — the no-cover
type, self-cover, `can_add` and `can_remove` — return `False` without
raising. -/
theorem C2_can_cover_raises :
    can_cover defaultConfig exEnv coveredPairState 1 3 =
      .error (.nameError "caller") ∧
    can_cover defaultConfig exEnv coveredPairState 2 8 =
      .error (.nameError "caller") ∧
    can_cover defaultConfig exEnv coveredPairState 2 1 =
      .error (.attributeError "caller") ∧
    can_cover defaultConfig exEnv coveredPairState 2 7 = .ok false ∧
    can_cover defaultConfig exEnv coveredPairState 2 2 = .ok false ∧
    can_add defaultConfig exEnv coveredPairState 8 = false ∧
    can_remove coveredPairState 3 = false :=
  ⟨rfl, rfl, rfl, rfl, rfl, rfl, rfl⟩

/-! C6 -/

/-- The failure condition of `can_add` exactly as the claim words it
(for comparison with the code): no clothing tag, or a configured total
limit that has been reached, or a configured per-type limit that has
been reached. -/
def can_add_fails_claimed (cfg : Config) (env : Env) (s : CState) (obj : Nat) : Prop :=
  env.tagOf obj = none ∨
  (∃ n, cfg.total_limit = some n ∧ n ≤ s.clothing_list.length) ∨
  (∃ t m, env.tagOf obj = some t ∧ cfg.type_limits.lookup t = some m ∧
    m ≤ count_type env s t)

/-- The default configuration with the total-worn limit set to 0. -/
def zeroLimitConfig : Config := { defaultConfig with total_limit := some 0 }

/-- C6 counterexample: with a configured total limit of 0 (which the
registry length has trivially reached) the claimed failure condition
holds, yet `can_add` returns `True`, because the Python truthiness test
`if _CLOTHING_TOTAL_LIMIT and ...` skips a zero limit. -/
theorem C6_counterexample :
    can_add_fails_claimed zeroLimitConfig exEnv initState 2 ∧
    can_add zeroLimitConfig exEnv initState 2 = true :=
  ⟨Or.inr (Or.inl ⟨0, rfl, Nat.zero_le _⟩), rfl⟩

theorem totalLimitReached_iff (cfg : Config) (s : CState) :
    totalLimitReached cfg s = true ↔
      ∃ n, cfg.total_limit = some n ∧ n ≠ 0 ∧ n ≤ s.clothing_list.length := by
  cases h : cfg.total_limit with
  | none => simp [totalLimitReached, h]
  | some n =>
    simp only [totalLimitReached, h]
    constructor
    · intro hif
      refine ⟨n, rfl, ?_⟩
      by_contra hcon
      rw [if_neg hcon] at hif
      cases hif
    · rintro ⟨m, hm, hrest⟩
      cases hm
      rw [if_pos hrest]

theorem can_add_eval_no_tag (cfg : Config) (env : Env) (s : CState) (obj : Nat)
    (h : env.tagOf obj = none) : can_add cfg env s obj = false := by
  simp [can_add, h]

theorem can_add_eval_total (cfg : Config) (env : Env) (s : CState) (obj : Nat) (t : String)
    (h : env.tagOf obj = some t) (hbl : totalLimitReached cfg s = true) :
    can_add cfg env s obj = false := by
  simp [can_add, h, hbl]

theorem can_add_eval_unlimited (cfg : Config) (env : Env) (s : CState) (obj : Nat)
    (t : String) (h : env.tagOf obj = some t) (hbl : totalLimitReached cfg s = false)
    (hlk : cfg.type_limits.lookup t = none) : can_add cfg env s obj = true := by
  simp [can_add, h, hbl, hlk]

theorem can_add_eval_limited (cfg : Config) (env : Env) (s : CState) (obj : Nat)
    (t : String) (m : Nat) (h : env.tagOf obj = some t)
    (hbl : totalLimitReached cfg s = false) (hlk : cfg.type_limits.lookup t = some m) :
    can_add cfg env s obj = if count_type env s t ≥ m then false else true := by
  simp [can_add, h, hbl, hlk]

/-- C6 amended: `can_add` returns `False` exactly when the item has no
clothing tag, or the total limit is configured to a nonzero value that
the registry length has reached, or the item's type has a configured
per-type limit that its count has reached; together with the hat
scenario (per-type limit 1): a first hat passes, after adding it the hat
count is 1 and a second distinct hat fails. -/
theorem C6_amended :
    (∀ (cfg : Config) (env : Env) (s : CState) (obj : Nat),
      can_add cfg env s obj = false ↔
        env.tagOf obj = none ∨
        (∃ n, cfg.total_limit = some n ∧ n ≠ 0 ∧ n ≤ s.clothing_list.length) ∨
        (∃ t m, env.tagOf obj = some t ∧ cfg.type_limits.lookup t = some m ∧
          m ≤ count_type env s t)) ∧
    can_add defaultConfig exEnv initState 4 = true ∧
    count_type exEnv (add defaultConfig exEnv initState 4 none false).1 "hat" = 1 ∧
    can_add defaultConfig exEnv (add defaultConfig exEnv initState 4 none false).1 5 = false := by
  refine ⟨fun cfg env s obj => ?_, rfl, rfl, rfl⟩
  cases hto : env.tagOf obj with
  | none => simp [can_add_eval_no_tag cfg env s obj hto, hto]
  | some t =>
    cases hbl : totalLimitReached cfg s with
    | true =>
      rw [can_add_eval_total cfg env s obj t hto hbl]
      constructor
      · intro hgoal
        exact Or.inr (Or.inl ((totalLimitReached_iff cfg s).mp hbl))
      · intro hgoal
        rfl
    | false =>
      cases hlk : cfg.type_limits.lookup t with
      | none =>
        rw [can_add_eval_unlimited cfg env s obj t hto hbl hlk]
        constructor
        · intro h
          cases h
        · rintro (h | ⟨n, hn, hne, hlen⟩ | ⟨u, m, hu, hm, hc⟩)
          · cases h
          · exfalso
            have := (totalLimitReached_iff cfg s).mpr ⟨n, hn, hne, hlen⟩
            rw [hbl] at this
            cases this
          · cases hu
            rw [hlk] at hm
            cases hm
      | some m =>
        rw [can_add_eval_limited cfg env s obj t m hto hbl hlk]
        by_cases hcnt : m ≤ count_type env s t
        · rw [if_pos (ge_iff_le.mpr hcnt)]
          constructor
          · intro hgoal
            exact Or.inr (Or.inr ⟨t, m, rfl, hlk, hcnt⟩)
          · intro hgoal
            rfl
        · rw [if_neg (fun hge => hcnt (ge_iff_le.mp hge))]
          constructor
          · intro h
            cases h
          · rintro (h | ⟨n, hn, hne, hlen⟩ | ⟨u, mm, hu, hm, hc⟩)
            · cases h
            · exfalso
              have := (totalLimitReached_iff cfg s).mpr ⟨n, hn, hne, hlen⟩
              rw [hbl] at this
              cases this
            · cases hu
              rw [hlk] at hm
              cases hm
              exact absurd hc hcnt

/-- Witness for C6's amended equivalence at a concrete no-tag input. -/
theorem C6_witness :
    can_add defaultConfig exEnv initState 8 = false := by
  have h := (C6_amended.1 defaultConfig exEnv initState 8).mpr (Or.inl rfl)
  exact h

/-! C7 -/

/-- Reduction of a successful `cover`: the cover reference is set and
the covering item is silently added when not already worn. -/
theorem cover_ok_true (cfg : Config) (env : Env) (s : CState) (a b : Nat)
    (ha : a ∈ s.clothing_list) (hok : can_cover cfg env s a b = .ok true) :
    cover cfg env s a b = .ok
      ((if b ∈ (coverSet s a b).clothing_list then coverSet s a b
        else (add cfg env (coverSet s a b) b none true).1),
       some (env.wearerName ++ " covers " ++ env.an (env.nameOf a) ++ " with " ++
         env.an (env.nameOf b) ++ ".")) := by
  unfold cover
  rw [if_neg (not_not_intro ha), hok]

/-- C7: covering a worn garment with a carried, not-worn garment that
passes validation sets the cover reference and silently adds the
covering garment to the registry — the only room notification returned
is the "covers" message, no "puts on" message is produced. -/
theorem C7_cover_adds_silently (cfg : Config) (env : Env) (s : CState) (a b : Nat)
    (ha : a ∈ s.clothing_list) (hb : b ∉ s.clothing_list)
    (hok : can_cover cfg env s a b = .ok true) :
    cover cfg env s a b = .ok (coverStateD cfg env s a b,
      some (env.wearerName ++ " covers " ++ env.an (env.nameOf a) ++ " with " ++
        env.an (env.nameOf b) ++ ".")) ∧
    (coverStateD cfg env s a b).covered_by a = some b ∧
    b ∈ (coverStateD cfg env s a b).clothing_list ∧
    (add cfg env (coverSet s a b) b none true).2 = none := by
  have hred := cover_ok_true cfg env s a b ha hok
  have hbs : b ∉ (coverSet s a b).clothing_list := hb
  rw [if_neg hbs] at hred
  have hst : coverStateD cfg env s a b = (add cfg env (coverSet s a b) b none true).1 := by
    unfold coverStateD
    rw [hred]
  refine ⟨by rw [hred, hst], ?_, ?_, rfl⟩
  · rw [hst]
    have h1 : (coverSet s a b).covered_by a = some b := by simp [coverSet]
    rw [add_covered_stable cfg env (coverSet s a b) b none true a (by rw [h1]; rfl), h1]
  · rw [hst, add_list_of_not_mem cfg env (coverSet s a b) b none true hbs]
    exact List.mem_append.mpr (Or.inr (by simp))

/-- A wearer that wears only garment 3 (the pants). -/
def pantsState : CState :=
  { clothing_list := [3], covered_by := fun _ => none, worn := fun _ => none }

/-- Witness for C7: covering the worn pants with the carried shirt. -/
theorem C7_witness :
    (coverStateD defaultConfig exEnv pantsState 3 2).covered_by 3 = some 2 ∧
    2 ∈ (coverStateD defaultConfig exEnv pantsState 3 2).clothing_list := by
  have h := C7_cover_adds_silently defaultConfig exEnv pantsState 3 2
    (by decide) (by decide) (by rfl)
  exact ⟨h.2.1, h.2.2.1⟩

/-! C5 -/

/-- Under the auto-cover hypotheses the scan list is exactly the visible
post-append registry filtered by the configured cover set. -/
theorem addCoverList_eq (cfg : Config) (env : Env) (s : CState) (obj : Nat)
    (t : String) (covers : List String) (hobj : obj ∉ s.clothing_list)
    (ht : env.tagOf obj = some t) (hl : cfg.autocover.lookup t = some covers) :
    addCoverList cfg env s obj =
      ((s.clothing_list ++ [obj]).filter (fun g => (s.covered_by g).isNone)).filter
        (fun g => tagIn env g covers) := by
  have hcov : autocoverSet cfg env obj = some covers :=
    (autocoverSet_eq_some cfg env obj covers).mpr ⟨t, ht, hl⟩
  unfold addCoverList
  rw [if_pos ⟨hobj, by rw [hcov]; rfl⟩, hcov]
  rfl

/-- C5: on a genuinely new add of an item whose type has a configured
auto-cover set, every currently visible worn item whose type is in that
set gets `covered_by` set to the new item and leaves `visible`; the
notification lists exactly the newly covered items; and a
style-adjustment re-add never touches any `covered_by`. -/
theorem C5_autocover :
    (∀ (cfg : Config) (env : Env) (s : CState) (obj : Nat) (style : Option String) (q : Bool)
        (t : String) (covers : List String),
      obj ∉ s.clothing_list → env.tagOf obj = some t → cfg.autocover.lookup t = some covers →
      ∀ g, g ∈ s.clothing_list → s.covered_by g = none →
      ∀ u, env.tagOf g = some u → u ∈ covers →
        (add cfg env s obj style q).1.covered_by g = some obj ∧
        g ∉ (add cfg env s obj style q).1.visible) ∧
    (∀ (cfg : Config) (env : Env) (s : CState) (obj : Nat) (style : Option String)
        (t : String) (covers : List String),
      obj ∉ s.clothing_list → env.tagOf obj = some t → cfg.autocover.lookup t = some covers →
      (add cfg env s obj style false).2 =
        some (env.wearerName ++ " " ++
          (if (((s.clothing_list ++ [obj]).filter (fun g => (s.covered_by g).isNone)).filter
                (fun g => tagIn env g covers)).isEmpty then
            "puts on " ++ env.an (env.nameOf obj)
          else
            ("puts on " ++ env.an (env.nameOf obj)) ++ ", covering " ++
              env.l2s ((((s.clothing_list ++ [obj]).filter
                  (fun g => (s.covered_by g).isNone)).filter
                (fun g => tagIn env g covers)).map (fun g => env.an (env.nameOf g)))) ++ ".")) ∧
    (∀ (cfg : Config) (env : Env) (s : CState) (obj : Nat) (style : Option String) (q : Bool),
      obj ∈ s.clothing_list → (add cfg env s obj style q).1.covered_by = s.covered_by) := by
  refine ⟨?_, ?_, ?_⟩
  · intro cfg env s obj style q t covers hobj htag hlk g hg hn u hu humem
    have hmem := addCoverList_complete cfg env s obj g t u covers hobj htag hlk
      (Or.inl hg) hn hu humem
    constructor
    · simp [add_covered_eq, hmem]
    · intro hvis
      rcases List.mem_filter.mp hvis with ⟨-, hnone⟩
      simp [add_covered_eq, hmem] at hnone
  · intro cfg env s obj style t covers hobj htag hlk
    have hacl := addCoverList_eq cfg env s obj t covers hobj htag hlk
    simp [add, hobj, hacl]
  · intro cfg env s obj style q h
    exact add_covered_of_mem cfg env s obj style q h

/-- A wearer that wears only the undershirt (1). -/
def w1State : CState := (add defaultConfig exEnv initState 1 none false).1

/-- Then puts on the shirt (2), whose type "top" auto-covers
"undershirt" in the default configuration. -/
def w2State : CState := (add defaultConfig exEnv w1State 2 none false).1

/-- Witness for C5: after wearing the shirt over the undershirt, the
undershirt is covered by the shirt and is no longer visible. -/
theorem C5_witness :
    w2State.covered_by 1 = some 2 ∧ 1 ∉ w2State.visible :=
  C5_autocover.1 defaultConfig exEnv w1State 2 none false "top" ["undershirt"]
    (by decide) rfl rfl 1 (by decide) rfl "undershirt" rfl (by decide)

/-! C9 -/

theorem buildGroups_fst (env : Env) (order : List String) (vis : List Nat) (t : String)
    (ht : t ∈ order) :
    (buildGroups env order vis).1 t = vis.filter (fun g => env.tagOf g == some t) := by
  induction vis with
  | nil => simp [buildGroups]
  | cons g rest ih =>
    cases hg : env.tagOf g with
    | none => simp [buildGroups, hg, ih]
    | some u =>
      by_cases hu : u ∈ order
      · by_cases hut : u = t
        · subst hut
          simp [buildGroups, hg, hu, ih]
        · simp [buildGroups, hg, hu, ih, hut, Ne.symm hut]
      · have hut : ¬(u = t) := fun hh => hu (hh ▸ ht)
        simp [buildGroups, hg, hu, hut, ih]

theorem buildGroups_snd (env : Env) (order : List String) (vis : List Nat) :
    (buildGroups env order vis).2 = vis.filter (fun g => !(tagIn env g order)) := by
  induction vis with
  | nil => simp [buildGroups]
  | cons g rest ih =>
    cases hg : env.tagOf g with
    | none => simp [buildGroups, tagIn, hg, ih]
    | some u =>
      by_cases hu : u ∈ order
      · simp [buildGroups, tagIn, hg, hu, ih]
      · simp [buildGroups, tagIn, hg, hu, ih]

/-- The default configuration with display order `["hat", "top"]`. -/
def hatTopConfig : Config := { defaultConfig with type_order := some ["hat", "top"] }

/-- A wearer with a visible shirt (2, top), hat (4) and scarf
(6, accessory), worn in that registry order. -/
def hatTopState : CState :=
  { clothing_list := [2, 4, 6], covered_by := fun _ => none, worn := fun _ => none }

/-- C9: with sorting enabled and a configured type order, the rendered
outfit is the visible items grouped by type in the configured order
(registry order within each group), with items of un-ordered or missing
type appended at the end; in the hat/top scenario the accessory is
emitted last. -/
theorem C9_render_order :
    (∀ (cfg : Config) (env : Env) (s : CState) (order : List String),
      cfg.type_order = some order → order ≠ [] →
      get_outfit cfg env s true =
        (order.flatMap (fun t => s.visible.filter (fun g => env.tagOf g == some t)) ++
          s.visible.filter (fun g => !(tagIn env g order))).map (appearance env s)) ∧
    get_outfit hatTopConfig exEnv hatTopState true = ["a hat", "a shirt", "a scarf"] := by
  constructor
  · intro cfg env s order hcfg hne
    have hord : (order.flatMap (buildGroups env order s.visible).1) =
        order.flatMap (fun t => s.visible.filter (fun g => env.tagOf g == some t)) :=
      List.flatMap_congr (fun t ht => buildGroups_fst env order s.visible t ht)
    have hemp : order.isEmpty = false := by
      cases order with
      | nil => exact absurd rfl hne
      | cons a l => rfl
    simp only [get_outfit, hcfg, hemp, Bool.not_false, Bool.and_self, if_pos,
      Option.getD_some]
    rw [hord, buildGroups_snd]
  · rfl

/-- Witness for C9's universal part, instantiated at the hat/top
scenario configuration. -/
theorem C9_witness :
    get_outfit hatTopConfig exEnv hatTopState true =
      ((["hat", "top"].flatMap (fun t =>
          hatTopState.visible.filter (fun g => exEnv.tagOf g == some t)) ++
        hatTopState.visible.filter (fun g => !(tagIn exEnv g ["hat", "top"]))).map
        (appearance exEnv hatTopState)) :=
  C9_render_order.1 hatTopConfig exEnv hatTopState ["hat", "top"] rfl (by decide)

/-! C1 -/

/-- In the default auto-cover table no type covers its own type, so the
scan can never make an item cover itself. -/
theorem defaultConfig_autocover_no_self (t : String) (l : List String)
    (h : defaultConfig.autocover.lookup t = some l) : t ∉ l := by
  simp only [defaultConfig, List.lookup] at h
  split at h
  next hb =>
    rw [beq_iff_eq] at hb
    subst hb
    cases h
    decide
  next =>
    split at h
    next hb =>
      rw [beq_iff_eq] at hb
      subst hb
      cases h
      decide
    next =>
      split at h
      next hb =>
        rw [beq_iff_eq] at hb
        subst hb
        cases h
        decide
      next =>
        split at h
        next hb =>
          rw [beq_iff_eq] at hb
          subst hb
          cases h
          decide
        next =>
          simp [List.lookup] at h

/-- The reachable-state invariant that actually holds: the registry has
no duplicates, garments outside it have no cover reference, and every
cover reference of a worn garment points into the registry and never at
the garment itself. -/
def Inv (s : CState) : Prop :=
  s.clothing_list.Nodup ∧
  (∀ g, g ∉ s.clothing_list → s.covered_by g = none) ∧
  (∀ g, g ∈ s.clothing_list → ∀ c, s.covered_by g = some c →
    c ∈ s.clothing_list ∧ c ≠ g)

theorem inv_init : Inv initState :=
  ⟨List.nodup_nil, fun _ _ => rfl, fun g hg => by cases hg⟩

theorem inv_add_adjust (cfg : Config) (env : Env) (s : CState) (obj : Nat)
    (style : Option String) (q : Bool) (h : obj ∈ s.clothing_list) (hinv : Inv s) :
    Inv (add cfg env s obj style q).1 := by
  unfold Inv
  rw [add_list_of_mem cfg env s obj style q h, add_covered_of_mem cfg env s obj style q h]
  exact hinv

/-- Invariant preservation for a genuinely new add, with the third
condition weakened to allow pre-existing references to the incoming
item (as the `cover` command creates just before its silent add). -/
theorem inv_add_new (env : Env) (s : CState) (obj : Nat) (style : Option String) (q : Bool)
    (hobj : obj ∉ s.clothing_list)
    (hnd : s.clothing_list.Nodup)
    (h2 : ∀ g, g ∉ s.clothing_list → s.covered_by g = none)
    (h3 : ∀ g, g ∈ s.clothing_list → ∀ c, s.covered_by g = some c →
      (c ∈ s.clothing_list ∨ c = obj) ∧ c ≠ g) :
    Inv (add defaultConfig env s obj style q).1 := by
  have hli := add_list_of_not_mem defaultConfig env s obj style q hobj
  refine ⟨?_, ?_, ?_⟩
  · rw [hli]
    simp [List.nodup_append, hnd, hobj]
  · intro g hg
    rw [hli] at hg
    have hgs : g ∉ s.clothing_list := fun hh => hg (List.mem_append.mpr (Or.inl hh))
    have hgo : g ≠ obj := fun hh => hg (List.mem_append.mpr (Or.inr (by simp [hh])))
    have hnc : g ∉ addCoverList defaultConfig env s obj := by
      intro hc
      rcases mem_addCoverList _ _ _ _ _ hc with ⟨-, -, hin, -⟩
      rcases hin with hin | hin
      · exact hgs hin
      · exact hgo hin
    simp [add_covered_eq, hnc]
    exact h2 g hgs
  · intro g hg c hc
    rw [hli] at hg ⊢
    by_cases hmemc : g ∈ addCoverList defaultConfig env s obj
    · simp only [add_covered_eq, hmemc, if_true] at hc
      cases hc
      refine ⟨List.mem_append.mpr (Or.inr (by simp)), ?_⟩
      intro heq
      subst heq
      rcases mem_addCoverList _ _ _ _ _ hmemc with ⟨-, -, -, t, covers, u, ht, hlk, hu, humem⟩
      rw [ht] at hu
      cases hu
      exact defaultConfig_autocover_no_self t covers hlk humem
    · simp only [add_covered_eq, hmemc, if_false] at hc
      rcases List.mem_append.mp hg with hgs | hgo
      · rcases h3 g hgs c hc with ⟨hcin, hne⟩
        refine ⟨?_, hne⟩
        rcases hcin with hcin | rfl
        · exact List.mem_append.mpr (Or.inl hcin)
        · exact List.mem_append.mpr (Or.inr (by simp))
      · have hgob : g = obj := by simpa using hgo
        subst hgob
        rw [h2 g hobj] at hc
        cases hc

theorem inv_removed (env : Env) (s : CState) (obj : Nat) (q : Bool) (hinv : Inv s) :
    Inv (removedState env s obj q) := by
  obtain ⟨h1, h2, h3⟩ := hinv
  by_cases hm : obj ∈ s.clothing_list
  · refine ⟨?_, ?_, ?_⟩
    · rw [removedState_list env s obj q hm]
      exact h1.erase obj
    · intro g hg
      rw [removedState_list env s obj q hm] at hg
      rw [removedState_covered env s obj q hm g]
      by_cases hgo : g = obj
      · subst hgo
        simp
      · rw [if_neg (fun hand => hg hand.1), if_neg hgo]
        apply h2
        intro hgs
        exact hg ((List.mem_erase_of_ne hgo).mpr hgs)
    · intro g hg c hc
      rw [removedState_list env s obj q hm] at hg ⊢
      rw [removedState_covered env s obj q hm g] at hc
      have hgo : g ≠ obj := by
        intro hh
        subst hh
        exact h1.not_mem_erase hg
      have hgs : g ∈ s.clothing_list := (List.mem_erase_of_ne hgo).mp hg
      by_cases hcnd : g ∈ s.clothing_list.erase obj ∧ ¬g = obj ∧ s.covered_by g = some obj
      · rw [if_pos hcnd] at hc
        cases hc
      · rw [if_neg hcnd, if_neg hgo] at hc
        rcases h3 g hgs c hc with ⟨hcin, hcg⟩
        have hco : c ≠ obj := by
          intro hh
          subst hh
          exact hcnd ⟨hg, hgo, hc⟩
        exact ⟨(List.mem_erase_of_ne hco).mpr hcin, hcg⟩
  · rw [removedState_not_mem env s obj q hm]
    refine ⟨h1, ?_, ?_⟩
    · intro g hg
      by_cases hgo : g = obj
      · subst hgo
        simp
      · simpa [hgo] using h2 g hg
    · intro g hg c hc
      by_cases hgo : g = obj
      · subst hgo
        simp at hc
      · simp only [hgo, if_neg, if_false] at hc
        exact h3 g hg c (by simpa [hgo] using hc)

/-- The facts recorded by a `can_cover` call that returns `ok true`. -/
theorem can_cover_ok_true_facts (cfg : Config) (env : Env) (s : CState) (a b : Nat)
    (h : can_cover cfg env s a b = .ok true) :
    s.covered_by a = none ∧ a ≠ b ∧ s.covered_by b = none := by
  unfold can_cover at h
  split_ifs at h with h1 h2 h3 h4 h5 <;>
    first
      | exact ⟨Option.not_isSome_iff_eq_none.mp h1, h4, Option.not_isSome_iff_eq_none.mp h5⟩
      | simp at h

theorem inv_coverStateD (env : Env) (s : CState) (a b : Nat) (hinv : Inv s) :
    Inv (coverStateD defaultConfig env s a b) := by
  unfold coverStateD
  by_cases hm : a ∈ s.clothing_list
  case neg =>
    rw [cover, if_pos hm]
    exact hinv
  case pos =>
    rw [cover, if_neg (not_not_intro hm)]
    cases hok : can_cover defaultConfig env s a b with
    | error e => exact hinv
    | ok bb =>
      cases bb
      case false => exact hinv
      case true =>
        dsimp only [coverSet]
        rcases can_cover_ok_true_facts defaultConfig env s a b hok with ⟨hca, hab, hcb⟩
        obtain ⟨h1, h2, h3⟩ := hinv
        have hinv1 : ∀ g, g ∉ (coverSet s a b).clothing_list →
            (coverSet s a b).covered_by g = none := by
          intro g hg
          have hga : g ≠ a := fun hh => hg (hh ▸ hm)
          simpa [coverSet, hga] using h2 g hg
        by_cases hb : b ∈ s.clothing_list
        · rw [if_pos hb]
          refine ⟨h1, hinv1, ?_⟩
          intro g hg c hc
          by_cases hga : g = a
          · subst hga
            simp only [coverSet, if_pos rfl] at hc
            cases hc
            exact ⟨hb, fun hh => hab hh.symm⟩
          · simp only [coverSet, hga, if_false, if_neg] at hc
            exact h3 g hg c (by simpa [hga] using hc)
        · rw [if_neg hb]
          apply inv_add_new env (coverSet s a b) b none true hb h1 hinv1
          intro g hg c hc
          by_cases hga : g = a
          · subst hga
            simp only [coverSet, if_pos rfl] at hc
            cases hc
            exact ⟨Or.inr rfl, fun hh => hab hh.symm⟩
          · have hc' : s.covered_by g = some c := by simpa [coverSet, hga] using hc
            rcases h3 g hg c hc' with ⟨hcin, hne⟩
            exact ⟨Or.inl hcin, hne⟩

theorem inv_uncover (env : Env) (s : CState) (obj : Nat) (hinv : Inv s) :
    Inv (uncover env s obj).1 := by
  by_cases hm : obj ∈ s.clothing_list
  case neg =>
    have hid : (uncover env s obj).1 = s := by simp [uncover, hm]
    rw [hid]
    exact hinv
  case pos =>
    cases hcv : s.covered_by obj with
    | none =>
      have hid : (uncover env s obj).1 = s := by simp [uncover, hm, hcv]
      rw [hid]
      exact hinv
    | some c =>
      cases hcc : (s.covered_by c).isSome with
      | true =>
        have hid : (uncover env s obj).1 = s := by simp [uncover, hm, hcv, hcc]
        rw [hid]
        exact hinv
      | false =>
        have hid : (uncover env s obj).1 =
            { s with covered_by := fun g => if g = obj then none else s.covered_by g } := by
          simp [uncover, hm, hcv, hcc]
        rw [hid]
        obtain ⟨h1, h2, h3⟩ := hinv
        refine ⟨h1, ?_, ?_⟩
        · intro g hg
          by_cases hgo : g = obj
          · subst hgo
            simp
          · simpa [hgo] using h2 g hg
        · intro g hg d hd
          by_cases hgo : g = obj
          · subst hgo
            simp at hd
          · exact h3 g hg d (by simpa [hgo] using hd)

theorem inv_clear (s : CState) (hinv : Inv s) : Inv (clear s) := by
  obtain ⟨-, h2, -⟩ := hinv
  refine ⟨List.nodup_nil, ?_, ?_⟩
  · intro g hg
    by_cases hgs : g ∈ s.clothing_list
    · simp [clear, hgs]
    · simpa [clear, hgs] using h2 g hgs
  · intro g hg
    cases hg

/-- Every state reachable by the command-level operations under the
default configuration satisfies the invariant. -/
theorem reach_inv (env : Env) (s : CState) (h : Reach defaultConfig env s) : Inv s := by
  induction h with
  | start => exact inv_init
  | wear s obj style quiet hr hca ih =>
    by_cases hm : obj ∈ s.clothing_list
    · exact inv_add_adjust defaultConfig env s obj style quiet hm ih
    · exact inv_add_new env s obj style quiet hm ih.1 ih.2.1
        (fun g hg c hc => ⟨Or.inl (ih.2.2 g hg c hc).1, (ih.2.2 g hg c hc).2⟩)
  | take s obj quiet hr hcr ih => exact inv_removed env s obj quiet ih
  | coverStep s a b hr ih => exact inv_coverStateD env s a b ih
  | uncoverStep s obj hr ih => exact inv_uncover env s obj ih
  | clearStep s hr ih => exact inv_clear s ih

/-- States of the C1 counterexample run: wear the hat (4), the scarf
(6, accessory) and the pants (3), then cover the hat with the scarf and
the scarf with the pants. -/
def c1sA : CState := (add defaultConfig exEnv initState 4 none false).1

def c1sB : CState := (add defaultConfig exEnv c1sA 6 none false).1

def c1sC : CState := (add defaultConfig exEnv c1sB 3 none false).1

def c1sD : CState := coverStateD defaultConfig exEnv c1sC 4 6

def c1sE : CState := coverStateD defaultConfig exEnv c1sD 6 3

/-- C1 counterexample: a reachable state in which the hat's covering
garment (the scarf) has itself been covered (by the pants) — `cover`
never checks whether its target already covers something, so the
depth-1 cap of the claim fails. -/
theorem C1_counterexample :
    Reach defaultConfig exEnv c1sE ∧
    4 ∈ c1sE.clothing_list ∧ c1sE.covered_by 4 = some 6 ∧
    6 ∈ c1sE.clothing_list ∧ c1sE.covered_by 6 = some 3 := by
  refine ⟨?_, by decide, by rfl, by decide, by rfl⟩
  exact Reach.coverStep c1sD 6 3
    (Reach.coverStep c1sC 4 6
      (Reach.wear c1sB 3 none false
        (Reach.wear c1sA 6 none false
          (Reach.wear initState 4 none false Reach.start (by rfl)) (by rfl)) (by rfl)))

/-- C1 amended: in every reachable state, every cover reference of a
worn garment points to a garment that is itself in the registry and is
distinct from the covered garment (no self-cover); the depth-1 part of
the claim is false — a garment that already covers another can itself
become covered (see the counterexample). -/
theorem C1_amended (env : Env) (s : CState) (h : Reach defaultConfig env s) :
    ∀ g, g ∈ s.clothing_list → ∀ c, s.covered_by g = some c →
      c ∈ s.clothing_list ∧ c ≠ g :=
  fun g hg c hc => (reach_inv env s h).2.2 g hg c hc

/-- Witness for C1's amended invariant: after wearing the undershirt and
then the shirt (which auto-covers it), the undershirt's coverer is worn
and distinct from it. -/
theorem C1_witness : 2 ∈ w2State.clothing_list ∧ 2 ≠ 1 :=
  C1_amended exEnv w2State
    (Reach.wear w1State 2 none false
      (Reach.wear initState 1 none false Reach.start (by rfl)) (by rfl))
    1 (by decide) 2 (by rfl)

end Clothing
